import Mathlib

/-!
Verification of the boot-scene media pipeline of `src/scenes/boot.rs` in the
gorkitale repository. The Rust code is shallowly embedded: the consumer-side
state `BootState` and the video part of the per-tick `update` function are
modelled as pure functions over rational time, the decode worker's loop as a
function from decode results to the frames it emits, and the frame-buffer
pool shared between producer and consumer as a small transition system.
-/

namespace Gorkitale

/-- The `VideoFrame` tuple of boot.rs line 16:
`(timestamp, rgba bytes, width, height, fps)`. -/
structure VideoFrame where
  time : ℚ
  rgba : List ℕ
  width : ℕ
  height : ℕ
  fps : ℚ
  deriving DecidableEq

/-- State of the bounded frame channel as seen by the consumer: the queued
frames, and whether the sending endpoint has been dropped (worker exited). -/
structure Chan where
  queue : List VideoFrame
  closed : Bool
  deriving DecidableEq

/-- The video-pipeline fields of `BootState` (boot.rs lines 18-36).
`video_receiver` / `recycler_tx` record whether the corresponding channel
endpoint is held (`Option::is_some` in the source); `video_sound` and
`video_instance` likewise record presence of the loaded sound and of a
playing audio instance. -/
structure BootState where
  video_muted : Bool
  video_receiver : Bool
  recycler_tx : Bool
  next_frame : Option VideoFrame
  video_sound : Bool
  video_instance : Bool
  video_texture : Option (List ℕ)
  video_width : ℕ
  video_height : ℕ
  video_fps : ℚ
  video_timer : ℚ
  video_ended : Bool
  deriving DecidableEq

/-- `BootState::new` (boot.rs lines 39-57). -/
def BootState.new : BootState :=
  { video_muted := false
    video_receiver := false
    recycler_tx := false
    next_frame := none
    video_sound := false
    video_instance := false
    video_texture := none
    video_width := 0
    video_height := 0
    video_fps := 30
    video_timer := 0
    video_ended := false }

/-- The whole consumer-visible world: the boot state, the current session's
frame channel, plus ghost observables used to state properties (number of
live audio instances, number of `init_video` calls, number of consumed
frames, and the log of frames uploaded to the display texture). -/
structure World where
  boot : BootState
  chan : Chan
  liveAudio : ℕ
  initCount : ℕ
  framesConsumed : ℕ
  displayed : List (List ℕ)
  deriving DecidableEq

/-- Per-tick environment: wall-clock delta, whether the mute key (S/Space)
was pressed, whether `Decoder::new` succeeds for a session spawned this
tick, whether audio load / play succeed, the frames the worker appended to
the channel before this tick's poll, and whether the worker exited (dropped
its sender) before this tick's poll. -/
structure TickEnv where
  dt : ℚ
  muteKey : Bool
  decodeOpens : Bool
  audioLoadOk : Bool
  audioPlayOk : Bool
  arrivals : List VideoFrame
  closesNow : Bool
  deriving DecidableEq

/-! ### Decoder/producer side (the worker closure of `init_video`, boot.rs 112-159) -/

/-- Rust `Vec::resize(n, 0)` on a byte vector (boot.rs line 131): truncate
to `n` elements or pad with zeros. -/
def resize (l : List ℕ) (n : ℕ) : List ℕ :=
  l.take n ++ List.replicate (n - l.length) 0

/-- Buffer acquisition (boot.rs line 127): take a recycled buffer when the
non-blocking receive yields one, otherwise allocate `n` zero bytes fresh. -/
def acquire_buffer (recycled : Option (List ℕ)) (n : ℕ) : List ℕ :=
  match recycled with
  | some b => b
  | none => List.replicate n 0

/-- The size fix-up of boot.rs lines 130-132: a buffer of the wrong length
is resized to exactly `n` bytes. -/
def ensure_size (buf : List ℕ) (n : ℕ) : List ℕ :=
  if buf.length ≠ n then resize buf n else buf

/-- Split the source slice into 3-byte RGB pixels, exactly as
`chunks_exact(3)` does (boot.rs line 136): a trailing remainder of fewer
than 3 bytes is dropped. -/
def chunks3 : List ℕ → List (ℕ × ℕ × ℕ)
  | a :: b :: c :: rest => (a, b, c) :: chunks3 rest
  | _ => []

/-- One iteration of the conversion loop body (boot.rs lines 140-145): the
write happens only when `rgba.get_mut(j..j+4)` succeeds, i.e. when the
4-byte destination window lies inside the buffer. -/
def writePixel (buf : List ℕ) (j : ℕ) (p : ℕ × ℕ × ℕ) : List ℕ :=
  if j + 4 ≤ buf.length then
    buf.take j ++ [p.1, p.2.1, p.2.2, 255] ++ buf.drop (j + 4)
  else buf

/-- The enumerated conversion loop (boot.rs lines 136-146), starting at
pixel index `i`. -/
def convertLoop : List (ℕ × ℕ × ℕ) → ℕ → List ℕ → List ℕ
  | [], _, buf => buf
  | p :: ps, i, buf => convertLoop ps (i + 1) (writePixel buf (4 * i) p)

/-- RGB→RGBA conversion of one frame (boot.rs lines 134-146). -/
def rgb_to_rgba (rgb : List ℕ) (rgba : List ℕ) : List ℕ :=
  convertLoop (chunks3 rgb) 0 rgba

/-- The frame-rate fallback of boot.rs lines 119-120: a reported rate that
is zero or negative is replaced by 30. -/
def effective_fps (reported : ℚ) : ℚ :=
  if reported ≤ 0 then 30 else reported

/-- One frame exactly as the worker pushes it on the channel (boot.rs
lines 123-149): buffer acquisition, size fix-up, RGB→RGBA conversion, and
the sanitized fps value. -/
def producerFrame (recycled : Option (List ℕ)) (time : ℚ) (rgb : List ℕ)
    (width height : ℕ) (reported : ℚ) : VideoFrame :=
  { time := time
    rgba := rgb_to_rgba rgb
      (ensure_size (acquire_buffer recycled (width * height * 4)) (width * height * 4))
    width := width
    height := height
    fps := effective_fps reported }

/-- The frames actually sent by the worker's decode loop (boot.rs lines
122-155): each `some` is a successfully decoded frame, `none` is a decode
error, at which the loop breaks exactly as at natural end of stream. -/
def workerEmits : List (Option VideoFrame) → List VideoFrame
  | [] => []
  | some f :: rest => f :: workerEmits rest
  | none :: _ => []

/-- The channel state a finished worker leaves behind: its emitted frames,
with the sending endpoint closed because the thread exited. -/
def workerChan (results : List (Option VideoFrame)) : Chan :=
  ⟨workerEmits results, true⟩

/-! ### Consumer side: `init_video` and the video part of `update` -/

/-- The condition under which `init_video` starts an audio instance
(boot.rs lines 85-95): a sound is available after the load attempt, the
mute flag is off, and `sound.play` succeeds. -/
def playsAudio (e : TickEnv) (w : World) : Bool :=
  (w.boot.video_sound || e.audioLoadOk) && !w.boot.video_muted && e.audioPlayOk

/-- `init_video` (boot.rs lines 59-160), restricted to its effect on the
embedded state: audio load (lines 70-82), audio start when not muted
(lines 85-101), creation of the two channels (lines 103-108) and the
worker spawn (line 112). A failed `Decoder::new` makes the worker exit at
once, so the fresh channel starts closed in that case. -/
def init_video (e : TickEnv) (w : World) : World :=
  { w with
    boot := { w.boot with
      video_sound := w.boot.video_sound || e.audioLoadOk
      video_instance := if playsAudio e w then true else w.boot.video_instance
      video_receiver := true
      recycler_tx := true }
    chan := ⟨[], !e.decodeOpens⟩
    liveAudio := w.liveAudio + (if playsAudio e w then 1 else 0)
    initCount := w.initCount + 1 }

/-- The init guard at the top of `update` (boot.rs lines 164-167). -/
def initStep (e : TickEnv) (w : World) : World :=
  if !w.boot.video_receiver && !w.boot.video_ended then init_video e w else w

/-- The mute-key handler (boot.rs lines 169-175): it only flips the flag. -/
def muteStep (e : TickEnv) (w : World) : World :=
  if e.muteKey then
    { w with boot := { w.boot with video_muted := !w.boot.video_muted } }
  else w

/-- The single non-blocking receive (boot.rs lines 182-191): performed only
when `next_frame` is empty; a frame becomes the new `next_frame`, a
disconnected channel sets `video_ended`, an empty one does nothing. -/
def pollChan (b : BootState) (c : Chan) : BootState × Chan :=
  if b.next_frame.isNone then
    match c.queue with
    | f :: rest => ({ b with next_frame := some f }, { c with queue := rest })
    | [] => (if c.closed then { b with video_ended := true } else b, c)
  else (b, c)

/-- The loop-restart branch (boot.rs lines 243-259): drop both channel
endpoints, clear `video_ended`, reset the timer, stop and drop any live
audio instance. -/
def loopRestart (w : World) : World :=
  { w with
    boot := { w.boot with
      video_receiver := false
      recycler_tx := false
      video_ended := false
      video_timer := 0
      video_instance := false }
    liveAudio := if w.boot.video_instance then w.liveAudio - 1 else w.liveAudio }

/-- The display-or-restart branch (boot.rs lines 193-259): with a pending
frame, sync `video_fps` (lines 199-201), and when the timer has reached one
frame duration consume the frame (upload to the texture, record width and
height, recycle the buffer, decrement the timer by the frame duration —
lines 209-242); with no pending frame and `video_ended` set, run the loop
restart (lines 243-259). -/
def displayStep (w : World) : World :=
  match w.boot.next_frame with
  | some f =>
    let b := if w.boot.video_fps ≠ f.fps then { w.boot with video_fps := f.fps } else w.boot
    if 1 / b.video_fps ≤ b.video_timer then
      { w with
        boot := { b with
          next_frame := none
          video_width := f.width
          video_height := f.height
          video_texture := some f.rgba
          video_timer := b.video_timer - 1 / b.video_fps }
        framesConsumed := w.framesConsumed + 1
        displayed := w.displayed ++ [f.rgba] }
    else { w with boot := b }
  | none => if w.boot.video_ended then loopRestart w else w

/-- The start of the frame-processing block (boot.rs lines 178-191): worker
activity since the last tick is merged into the channel, the timer advances
by the tick delta (line 180), and the single non-blocking poll runs. -/
def pollWorld (e : TickEnv) (w : World) : World :=
  { w with
    boot := (pollChan { w.boot with video_timer := w.boot.video_timer + e.dt }
      ⟨w.chan.queue ++ e.arrivals, w.chan.closed || e.closesNow⟩).1
    chan := (pollChan { w.boot with video_timer := w.boot.video_timer + e.dt }
      ⟨w.chan.queue ++ e.arrivals, w.chan.closed || e.closesNow⟩).2 }

/-- The frame-processing block of `update` (boot.rs lines 177-260), guarded
by the receiver being present: timer advance and poll, then the
display-or-restart logic. -/
def frameProcess (e : TickEnv) (w : World) : World :=
  if w.boot.video_receiver then displayStep (pollWorld e w) else w

/-- The video part of one `update` tick (boot.rs lines 163-260), in source
order: init guard, mute key, frame processing. -/
def tick (e : TickEnv) (w : World) : World :=
  frameProcess e (muteStep e (initStep e w))

/-- A run of the consumer over a sequence of tick environments. -/
def trace (w : World) (es : List TickEnv) : World :=
  es.foldl (fun a e => tick e a) w

/-- Total wall-clock time of a run. -/
def totalDt (es : List TickEnv) : ℚ :=
  (es.map TickEnv.dt).sum

/-- The world before the first `update` tick. -/
def initialWorld : World :=
  { boot := BootState.new
    chan := ⟨[], false⟩
    liveAudio := 0
    initCount := 0
    framesConsumed := 0
    displayed := [] }

/-! ### Lemmas about the producer's buffer handling and pixel conversion -/

theorem resize_length (l : List ℕ) (n : ℕ) : (resize l n).length = n := by
  simp only [resize, List.length_append, List.length_take, List.length_replicate]
  omega

theorem ensure_size_length (buf : List ℕ) (n : ℕ) : (ensure_size buf n).length = n := by
  unfold ensure_size
  split
  · exact resize_length buf n
  · omega

theorem ensure_size_eq_self (buf : List ℕ) (n : ℕ) (h : buf.length = n) :
    ensure_size buf n = buf := by
  simp [ensure_size, h]

theorem writePixel_length (buf : List ℕ) (j : ℕ) (p : ℕ × ℕ × ℕ) :
    (writePixel buf j p).length = buf.length := by
  unfold writePixel
  split
  · simp only [List.length_append, List.length_take, List.length_drop, List.length_cons,
      List.length_nil]
    omega
  · rfl

theorem writePixel_oob (buf : List ℕ) (j : ℕ) (p : ℕ × ℕ × ℕ)
    (h : buf.length < j + 4) : writePixel buf j p = buf := by
  simp [writePixel]
  omega

theorem convertLoop_length (ps : List (ℕ × ℕ × ℕ)) (i : ℕ) (buf : List ℕ) :
    (convertLoop ps i buf).length = buf.length := by
  induction ps generalizing i buf with
  | nil => rfl
  | cons p ps ih => rw [convertLoop, ih, writePixel_length]

theorem rgb_to_rgba_length (rgb buf : List ℕ) :
    (rgb_to_rgba rgb buf).length = buf.length :=
  convertLoop_length _ _ _

theorem writePixel_get?_lt (buf : List ℕ) (j : ℕ) (p : ℕ × ℕ × ℕ) (m : ℕ)
    (hm : m < j) : (writePixel buf j p).get? m = buf.get? m := by
  unfold writePixel
  split
  · next h =>
    rw [List.append_assoc, List.get?_append, List.get?_take hm]
    simpa [List.length_take] using by omega
  · rfl

theorem writePixel_get?_vals (buf : List ℕ) (j : ℕ) (p : ℕ × ℕ × ℕ)
    (h : j + 4 ≤ buf.length) :
    (writePixel buf j p).get? j = some p.1 ∧
    (writePixel buf j p).get? (j + 1) = some p.2.1 ∧
    (writePixel buf j p).get? (j + 2) = some p.2.2 ∧
    (writePixel buf j p).get? (j + 3) = some 255 := by
  have ht : (buf.take j).length = j := by
    simp only [List.length_take]
    omega
  unfold writePixel
  rw [if_pos h]
  refine ⟨?_, ?_, ?_, ?_⟩
  · rw [List.append_assoc, List.get?_append_right (le_of_eq ht), ht]
    simp
  · rw [List.append_assoc, List.get?_append_right (by omega), ht]
    simp [Nat.add_sub_cancel_left]
  · rw [List.append_assoc, List.get?_append_right (by omega), ht]
    have : j + 2 - j = 2 := by omega
    simp [this]
  · rw [List.append_assoc, List.get?_append_right (by omega), ht]
    have : j + 3 - j = 3 := by omega
    simp [this]

theorem convertLoop_get?_lt (ps : List (ℕ × ℕ × ℕ)) (i : ℕ) (buf : List ℕ) (m : ℕ)
    (hm : m < 4 * i) : (convertLoop ps i buf).get? m = buf.get? m := by
  induction ps generalizing i buf with
  | nil => rfl
  | cons p ps ih =>
    rw [convertLoop, ih _ _ (by omega), writePixel_get?_lt _ _ _ _ hm]

theorem convertLoop_get?_pixel (ps : List (ℕ × ℕ × ℕ)) (j : ℕ) (buf : List ℕ)
    (i : ℕ) (p : ℕ × ℕ × ℕ) (hp : ps.get? i = some p)
    (hlen : 4 * (j + i) + 4 ≤ buf.length) :
    (convertLoop ps j buf).get? (4 * (j + i)) = some p.1 ∧
    (convertLoop ps j buf).get? (4 * (j + i) + 1) = some p.2.1 ∧
    (convertLoop ps j buf).get? (4 * (j + i) + 2) = some p.2.2 ∧
    (convertLoop ps j buf).get? (4 * (j + i) + 3) = some 255 := by
  induction ps generalizing j buf i with
  | nil => simp at hp
  | cons q ps ih =>
    cases i with
    | zero =>
      simp only [List.get?_cons_zero, Option.some.injEq] at hp
      subst hp
      rw [convertLoop]
      have hv := writePixel_get?_vals buf (4 * j) q (by omega)
      refine ⟨?_, ?_, ?_, ?_⟩
      · rw [convertLoop_get?_lt _ _ _ _ (by omega)]
        simpa using hv.1
      · rw [convertLoop_get?_lt _ _ _ _ (by omega)]
        simpa using hv.2.1
      · rw [convertLoop_get?_lt _ _ _ _ (by omega)]
        simpa using hv.2.2.1
      · rw [convertLoop_get?_lt _ _ _ _ (by omega)]
        simpa using hv.2.2.2
    | succ i =>
      simp only [List.get?_cons_succ] at hp
      have := ih (j + 1) (writePixel buf (4 * j) q) i hp
        (by rw [writePixel_length]; omega)
      have harith : j + 1 + i = j + (i + 1) := by omega
      rw [convertLoop]
      rw [harith] at this
      exact ⟨this.1, this.2.1, this.2.2.1, this.2.2.2⟩

theorem chunks3_get? (l : List ℕ) (i : ℕ) (h : 3 * i + 3 ≤ l.length) :
    ∃ a b c, l.get? (3 * i) = some a ∧ l.get? (3 * i + 1) = some b ∧
      l.get? (3 * i + 2) = some c ∧ (chunks3 l).get? i = some (a, b, c) := by
  induction i generalizing l with
  | zero =>
    match l, h with
    | a :: b :: c :: rest, _ =>
      exact ⟨a, b, c, rfl, rfl, rfl, rfl⟩
  | succ i ih =>
    match l, h with
    | a :: b :: c :: rest, h =>
      obtain ⟨x, y, z, h1, h2, h3, h4⟩ := ih rest (by simp at h ⊢; omega)
      refine ⟨x, y, z, ?_, ?_, ?_, ?_⟩
      · have : 3 * (i + 1) = 3 * i + 2 + 1 := by omega
        simpa [this, List.get?_cons_succ] using h1
      · have : 3 * (i + 1) + 1 = 3 * i + 3 + 1 := by omega
        simp only [this]
        have h1' : 3 * i + 3 + 1 = (3 * i + 1) + 3 := by omega
        simpa [h1', List.get?_cons_succ] using h2
      · have : 3 * (i + 1) + 2 = (3 * i + 2) + 3 := by omega
        simpa [this, List.get?_cons_succ] using h3
      · simpa [chunks3, List.get?_cons_succ] using h4

/-- C4: the producer obtains a pixel buffer by a non-blocking attempt on
the recycle channel, falls back to a fresh zero-filled allocation of
exactly `width*height*4` bytes when recycling yields nothing, resizes a
wrong-sized recycled buffer to `width*height*4` bytes (keeping a
right-sized one as is), and the RGB→RGBA conversion is total, never grows
or shrinks the destination buffer, and skips any pixel whose 4-byte window
would fall outside the buffer instead of writing out of bounds. -/
theorem producer_buffer_safety :
    (∀ n, acquire_buffer none n = List.replicate n 0) ∧
    (∀ b n, b.length = n → ensure_size (acquire_buffer (some b) n) n = b) ∧
    (∀ r n, (ensure_size (acquire_buffer r n) n).length = n) ∧
    (∀ rgb buf, (rgb_to_rgba rgb buf).length = buf.length) ∧
    (∀ buf j p, buf.length < j + 4 → writePixel buf j p = buf) := by
  refine ⟨fun n => rfl, ?_, ?_, ?_, ?_⟩
  · intro b n h
    exact ensure_size_eq_self b n h
  · intro r n
    exact ensure_size_length _ n
  · intro rgb buf
    exact rgb_to_rgba_length rgb buf
  · intro buf j p h
    exact writePixel_oob buf j p h

theorem producer_buffer_safety_witness :
    ensure_size (acquire_buffer (some [1, 2, 3, 4]) 4) 4 = [1, 2, 3, 4] ∧
    writePixel [9, 9] 0 (1, 2, 3) = [9, 9] :=
  ⟨producer_buffer_safety.2.1 [1, 2, 3, 4] 4 (by decide),
   producer_buffer_safety.2.2.2.2 [9, 9] 0 (1, 2, 3) (by decide)⟩

/-- C9: the pixel conversion is a byte-for-byte copy per pixel with no
blending: for every pixel index `i` whose 3-byte source window and 4-byte
destination window are both in bounds, output bytes `4i`, `4i+1`, `4i+2`
equal source bytes `3i`, `3i+1`, `3i+2`, and output byte `4i+3` is 255. -/
theorem rgba_conversion_bytes (rgb buf : List ℕ) (i : ℕ)
    (hsrc : 3 * i + 3 ≤ rgb.length) (hdst : 4 * i + 4 ≤ buf.length) :
    (rgb_to_rgba rgb buf).get? (4 * i) = rgb.get? (3 * i) ∧
    (rgb_to_rgba rgb buf).get? (4 * i + 1) = rgb.get? (3 * i + 1) ∧
    (rgb_to_rgba rgb buf).get? (4 * i + 2) = rgb.get? (3 * i + 2) ∧
    (rgb_to_rgba rgb buf).get? (4 * i + 3) = some 255 := by
  obtain ⟨a, b, c, h1, h2, h3, h4⟩ := chunks3_get? rgb i hsrc
  have hc := convertLoop_get?_pixel (chunks3 rgb) 0 buf i (a, b, c) h4
    (by simpa using hdst)
  simp only [Nat.zero_add] at hc
  unfold rgb_to_rgba
  rw [h1, h2, h3]
  exact hc

theorem rgba_conversion_bytes_witness :
    (rgb_to_rgba [1, 2, 3] [0, 0, 0, 0]).get? (4 * 0) = [1, 2, 3].get? (3 * 0) ∧
    (rgb_to_rgba [1, 2, 3] [0, 0, 0, 0]).get? (4 * 0 + 1) = [1, 2, 3].get? (3 * 0 + 1) ∧
    (rgb_to_rgba [1, 2, 3] [0, 0, 0, 0]).get? (4 * 0 + 2) = [1, 2, 3].get? (3 * 0 + 2) ∧
    (rgb_to_rgba [1, 2, 3] [0, 0, 0, 0]).get? (4 * 0 + 3) = some 255 :=
  rgba_conversion_bytes [1, 2, 3] [0, 0, 0, 0] 0 (by decide) (by decide)

/-- C8: a source-reported frame rate that is zero or negative is replaced
by the default 30, a positive rate is kept unchanged, and therefore every
frame the producer pushes on the frame channel carries a strictly positive
fps value. -/
theorem fps_fallback_positive :
    (∀ reported : ℚ, reported ≤ 0 → effective_fps reported = 30) ∧
    (∀ reported : ℚ, 0 < reported → effective_fps reported = reported) ∧
    (∀ (recycled : Option (List ℕ)) (time : ℚ) (rgb : List ℕ) (width height : ℕ)
      (reported : ℚ),
      0 < (producerFrame recycled time rgb width height reported).fps) := by
  refine ⟨?_, ?_, ?_⟩
  · intro r h
    simp [effective_fps, h]
  · intro r h
    simp [effective_fps, not_le.mpr h]
  · intro recycled time rgb width height reported
    show 0 < effective_fps reported
    unfold effective_fps
    split
    · norm_num
    · next h => exact lt_of_not_le h

theorem fps_fallback_positive_witness :
    effective_fps (-1) = 30 ∧ effective_fps 24 = 24 ∧
    0 < (producerFrame none 0 [] 2 2 (-5)).fps :=
  ⟨fps_fallback_positive.1 (-1) (by norm_num),
   fps_fallback_positive.2.1 24 (by norm_num),
   fps_fallback_positive.2.2 none 0 [] 2 2 (-5)⟩

/-! ### The buffer pool as a transition system (claim C3)

The frame buffers circulate between four places: the bounded frame channel
(`sync_channel(5)`, boot.rs line 104 — the capacity is the parameter `C`
here), the producer's hands (the buffer being filled, or held inside a
blocked `send`, boot.rs lines 127-149), the consumer's `next_frame` slot
(boot.rs lines 183-191), and the unbounded recycle channel (boot.rs
lines 105, 236-239). Teardown steps that merely drop a buffer are included
for completeness. -/

structure PoolState where
  chanLen : ℕ
  sending : ℕ
  pending : ℕ
  recycled : ℕ
  deriving DecidableEq

/-- Buffers outstanding anywhere in the pipeline. -/
def PoolState.outstanding (s : PoolState) : ℕ :=
  s.chanLen + s.sending + s.pending + s.recycled

def PoolState.start : PoolState := ⟨0, 0, 0, 0⟩

/-- One interleaved step of producer or consumer, for channel capacity C. -/
inductive PoolStep (C : ℕ) : PoolState → PoolState → Prop
  | acquire_recycled (s : PoolState) (h0 : s.sending = 0) (h1 : 0 < s.recycled) :
      PoolStep C s { s with sending := 1, recycled := s.recycled - 1 }
  | acquire_fresh (s : PoolState) (h0 : s.sending = 0) (h1 : s.recycled = 0) :
      PoolStep C s { s with sending := 1 }
  | send_complete (s : PoolState) (h0 : s.sending = 1) (h1 : s.chanLen < C) :
      PoolStep C s { s with sending := 0, chanLen := s.chanLen + 1 }
  | fetch (s : PoolState) (h0 : s.pending = 0) (h1 : 0 < s.chanLen) :
      PoolStep C s { s with pending := 1, chanLen := s.chanLen - 1 }
  | recycle (s : PoolState) (h0 : s.pending = 1) :
      PoolStep C s { s with pending := 0, recycled := s.recycled + 1 }
  | drop_pending (s : PoolState) (h0 : s.pending = 1) :
      PoolStep C s { s with pending := 0 }
  | drop_chan (s : PoolState) (h1 : 0 < s.chanLen) :
      PoolStep C s { s with chanLen := s.chanLen - 1 }
  | drop_recycled (s : PoolState) (h1 : 0 < s.recycled) :
      PoolStep C s { s with recycled := s.recycled - 1 }

/-- The inductive invariant for the buffer bound. -/
def PoolInv (C : ℕ) (s : PoolState) : Prop :=
  s.chanLen ≤ C ∧ s.sending ≤ 1 ∧ s.pending ≤ 1 ∧ s.outstanding ≤ C + 2

theorem poolInv_start (C : ℕ) : PoolInv C PoolState.start := by
  simp [PoolInv, PoolState.start, PoolState.outstanding]

theorem poolInv_step {C : ℕ} {s s' : PoolState} (hinv : PoolInv C s)
    (hstep : PoolStep C s s') : PoolInv C s' := by
  obtain ⟨hc, hs, hp, ho⟩ := hinv
  cases hstep with
  | acquire_recycled h0 h1 =>
    simp only [PoolInv, PoolState.outstanding] at *
    omega
  | acquire_fresh h0 h1 =>
    simp only [PoolInv, PoolState.outstanding] at *
    omega
  | send_complete h0 h1 =>
    simp only [PoolInv, PoolState.outstanding] at *
    omega
  | fetch h0 h1 =>
    simp only [PoolInv, PoolState.outstanding] at *
    omega
  | recycle h0 =>
    simp only [PoolInv, PoolState.outstanding] at *
    omega
  | drop_pending h0 =>
    simp only [PoolInv, PoolState.outstanding] at *
    omega
  | drop_chan h1 =>
    simp only [PoolInv, PoolState.outstanding] at *
    omega
  | drop_recycled h1 =>
    simp only [PoolInv, PoolState.outstanding] at *
    omega

/-- C3: for every channel capacity `C ≥ 1` and every interleaving of
producer and consumer steps over an arbitrarily long running session, the
number of outstanding frame buffers — in the frame channel, in the
channel's send-in-progress slot, held as the pending frame, or recycled
but unclaimed — never exceeds `C + 2`. -/
theorem pool_outstanding_bound (C : ℕ) (s : PoolState) (hC : 1 ≤ C)
    (hreach : Relation.ReflTransGen (PoolStep C) PoolState.start s) :
    s.outstanding ≤ C + 2 := by
  have hinv : PoolInv C s := by
    induction hreach with
    | refl => exact poolInv_start C
    | tail _ hstep ih => exact poolInv_step ih hstep
  exact hinv.2.2.2

theorem pool_outstanding_bound_witness :
    PoolState.start.outstanding ≤ 1 + 2 :=
  pool_outstanding_bound 1 PoolState.start (by decide) Relation.ReflTransGen.refl

/-! ### Case characterization of one consumer tick -/

/-- The value of the consume branch of `displayStep` (boot.rs 209-242). -/
def consumeFrame (w : World) (f : VideoFrame) : World :=
  { w with
    boot := { w.boot with
      video_fps := f.fps
      next_frame := none
      video_width := f.width
      video_height := f.height
      video_texture := some f.rgba
      video_timer := w.boot.video_timer - 1 / f.fps }
    framesConsumed := w.framesConsumed + 1
    displayed := w.displayed ++ [f.rgba] }

theorem fpsSync (b : BootState) (q : ℚ) :
    (if b.video_fps ≠ q then { b with video_fps := q } else b) = { b with video_fps := q } := by
  split
  · rfl
  · next h =>
    have h' : b.video_fps = q := not_not.mp h
    rw [← h']

theorem muteStep_eq (e : TickEnv) (w : World) :
    muteStep e w =
      { w with boot := { w.boot with video_muted := xor e.muteKey w.boot.video_muted } } := by
  unfold muteStep
  cases e.muteKey <;> simp

theorem tick_running (e : TickEnv) (w : World) (hr : w.boot.video_receiver = true) :
    tick e w = frameProcess e (muteStep e w) := by
  unfold tick initStep
  rw [hr]
  rfl

theorem displayStep_some (w : World) (f : VideoFrame)
    (hf : w.boot.next_frame = some f) :
    displayStep w =
      if 1 / f.fps ≤ w.boot.video_timer then consumeFrame w f
      else { w with boot := { w.boot with video_fps := f.fps } } := by
  obtain ⟨⟨m, recv, rcy, nf, snd, inst, tex, wd, ht, fps, tmr, ed⟩, ch, la, ic, fc, dp⟩ := w
  dsimp only at hf ⊢
  subst hf
  unfold displayStep
  dsimp only
  by_cases hfps : fps = f.fps
  · subst hfps
    simp only [ne_eq, not_true_eq_false, if_false, ite_false]
    rfl
  · simp only [ne_eq, hfps, not_false_eq_true, if_true, ite_true]
    rfl

theorem displayStep_none_ended (w : World) (hf : w.boot.next_frame = none)
    (he : w.boot.video_ended = true) : displayStep w = loopRestart w := by
  unfold displayStep
  rw [hf, he]
  rfl

theorem displayStep_none_live (w : World) (hf : w.boot.next_frame = none)
    (he : w.boot.video_ended = false) : displayStep w = w := by
  unfold displayStep
  rw [hf, he]
  rfl

theorem frameProcess_off (e : TickEnv) (w : World)
    (hr : w.boot.video_receiver = false) : frameProcess e w = w := by
  unfold frameProcess
  rw [hr]
  rfl

theorem frameProcess_pending (e : TickEnv) (w : World) (f : VideoFrame)
    (hr : w.boot.video_receiver = true) (hf : w.boot.next_frame = some f) :
    frameProcess e w =
      displayStep { w with
        boot := { w.boot with video_timer := w.boot.video_timer + e.dt }
        chan := ⟨w.chan.queue ++ e.arrivals, w.chan.closed || e.closesNow⟩ } := by
  unfold frameProcess pollWorld
  rw [hr]
  simp only [pollChan, hf, Option.isNone_some, Bool.false_eq_true, if_false, if_true]

theorem frameProcess_recv (e : TickEnv) (w : World) (f : VideoFrame)
    (rest : List VideoFrame) (hr : w.boot.video_receiver = true)
    (hf : w.boot.next_frame = none)
    (hq : w.chan.queue ++ e.arrivals = f :: rest) :
    frameProcess e w =
      displayStep { w with
        boot := { w.boot with
          video_timer := w.boot.video_timer + e.dt
          next_frame := some f }
        chan := ⟨rest, w.chan.closed || e.closesNow⟩ } := by
  unfold frameProcess pollWorld
  rw [hr]
  simp only [pollChan, hf, Option.isNone_none, if_true, hq]

theorem frameProcess_disconnected (e : TickEnv) (w : World)
    (hr : w.boot.video_receiver = true) (hf : w.boot.next_frame = none)
    (hq : w.chan.queue ++ e.arrivals = [])
    (hc : (w.chan.closed || e.closesNow) = true) :
    frameProcess e w =
      displayStep { w with
        boot := { w.boot with
          video_timer := w.boot.video_timer + e.dt
          video_ended := true }
        chan := ⟨[], true⟩ } := by
  unfold frameProcess pollWorld
  rw [hr]
  simp only [pollChan, hf, Option.isNone_none, if_true, hq, hc]

theorem frameProcess_empty_open (e : TickEnv) (w : World)
    (hr : w.boot.video_receiver = true) (hf : w.boot.next_frame = none)
    (hq : w.chan.queue ++ e.arrivals = [])
    (hc : (w.chan.closed || e.closesNow) = false) :
    frameProcess e w =
      displayStep { w with
        boot := { w.boot with video_timer := w.boot.video_timer + e.dt }
        chan := ⟨[], false⟩ } := by
  unfold frameProcess pollWorld
  rw [hr]
  simp only [pollChan, hf, Option.isNone_none, if_true, hq, hc, Bool.false_eq_true, if_false]

theorem initStep_on (e : TickEnv) (w : World) (hr : w.boot.video_receiver = false)
    (he : w.boot.video_ended = false) : initStep e w = init_video e w := by
  unfold initStep
  rw [hr, he]
  rfl

theorem initStep_off (e : TickEnv) (w : World) (hr : w.boot.video_receiver = true) :
    initStep e w = w := by
  unfold initStep
  rw [hr]
  rfl

theorem pollChan_texture (b : BootState) (c : Chan) :
    (pollChan b c).1.video_texture = b.video_texture := by
  unfold pollChan
  split
  · split
    · rfl
    · split <;> rfl
  · rfl

theorem displayStep_texture_or (w : World) :
    (displayStep w).boot.video_texture = w.boot.video_texture ∨
    (displayStep w).framesConsumed = w.framesConsumed + 1 := by
  cases hnf : w.boot.next_frame with
  | none =>
    cases he : w.boot.video_ended with
    | false => rw [displayStep_none_live w hnf he]; left; rfl
    | true => rw [displayStep_none_ended w hnf he]; left; rfl
  | some f =>
    rw [displayStep_some w f hnf]
    split
    · right; rfl
    · left; rfl

theorem initStep_texture (e : TickEnv) (w : World) :
    (initStep e w).boot.video_texture = w.boot.video_texture ∧
    (initStep e w).framesConsumed = w.framesConsumed := by
  unfold initStep init_video
  split <;> exact ⟨rfl, rfl⟩

theorem muteStep_texture (e : TickEnv) (w : World) :
    (muteStep e w).boot.video_texture = w.boot.video_texture ∧
    (muteStep e w).framesConsumed = w.framesConsumed := by
  unfold muteStep
  split <;> exact ⟨rfl, rfl⟩

theorem frameProcess_on (e : TickEnv) (w : World) (hr : w.boot.video_receiver = true) :
    frameProcess e w = displayStep (pollWorld e w) := by
  unfold frameProcess
  rw [hr]
  rfl

theorem pollWorld_texture (e : TickEnv) (w : World) :
    (pollWorld e w).boot.video_texture = w.boot.video_texture :=
  pollChan_texture _ _

theorem pollWorld_consumed (e : TickEnv) (w : World) :
    (pollWorld e w).framesConsumed = w.framesConsumed := rfl

theorem frameProcess_texture_or (e : TickEnv) (w : World) :
    (frameProcess e w).boot.video_texture = w.boot.video_texture ∨
    (frameProcess e w).framesConsumed = w.framesConsumed + 1 := by
  cases hr : w.boot.video_receiver with
  | false => rw [frameProcess_off e w hr]; left; rfl
  | true =>
    rw [frameProcess_on e w hr]
    rcases displayStep_texture_or (pollWorld e w) with h | h
    · left
      rw [h]
      exact pollWorld_texture e w
    · right
      rw [h, pollWorld_consumed]

theorem tick_texture_or (e : TickEnv) (w : World) :
    (tick e w).boot.video_texture = w.boot.video_texture ∨
    (tick e w).framesConsumed = w.framesConsumed + 1 := by
  unfold tick
  have h1 := initStep_texture e w
  have h2 := muteStep_texture e (initStep e w)
  rcases frameProcess_texture_or e (muteStep e (initStep e w)) with h | h
  · left
    rw [h, h2.1, h1.1]
  · right
    rw [h, h2.2, h1.2]

/-- C10: the loop-restart step modifies only the frame-channel receiver,
the recycler sender, the ended flag, the timer, and the audio instance;
the display texture, stored video width and height, stored fps, and the
muted flag are left unchanged; re-initialization also leaves the texture
untouched, and a tick that consumes no frame never changes the texture, so
the last uploaded frame stays on the display surface throughout
re-initialization until the new session's first frame is uploaded. -/
theorem restart_preserves_display :
    (∀ w : World,
      (loopRestart w).boot.video_texture = w.boot.video_texture ∧
      (loopRestart w).boot.video_width = w.boot.video_width ∧
      (loopRestart w).boot.video_height = w.boot.video_height ∧
      (loopRestart w).boot.video_fps = w.boot.video_fps ∧
      (loopRestart w).boot.video_muted = w.boot.video_muted ∧
      (loopRestart w).boot.video_sound = w.boot.video_sound ∧
      (loopRestart w).boot.next_frame = w.boot.next_frame ∧
      (loopRestart w).displayed = w.displayed ∧
      (loopRestart w).framesConsumed = w.framesConsumed ∧
      (loopRestart w).boot.video_receiver = false ∧
      (loopRestart w).boot.recycler_tx = false ∧
      (loopRestart w).boot.video_ended = false ∧
      (loopRestart w).boot.video_timer = 0 ∧
      (loopRestart w).boot.video_instance = false) ∧
    (∀ (e : TickEnv) (w : World),
      (initStep e w).boot.video_texture = w.boot.video_texture) ∧
    (∀ (e : TickEnv) (w : World),
      (tick e w).framesConsumed = w.framesConsumed →
      (tick e w).boot.video_texture = w.boot.video_texture) := by
  refine ⟨?_, ?_, ?_⟩
  · intro w
    exact ⟨rfl, rfl, rfl, rfl, rfl, rfl, rfl, rfl, rfl, rfl, rfl, rfl, rfl, rfl⟩
  · intro e w
    exact (initStep_texture e w).1
  · intro e w h
    rcases tick_texture_or e w with ht | ht
    · exact ht
    · rw [h] at ht
      omega

theorem restart_preserves_display_witness :
    (tick ⟨1, false, false, false, false, [], false⟩ initialWorld).framesConsumed =
      initialWorld.framesConsumed ∧
    (tick ⟨1, false, false, false, false, [], false⟩ initialWorld).boot.video_texture =
      initialWorld.boot.video_texture := by
  have h : (tick ⟨1, false, false, false, false, [], false⟩ initialWorld).framesConsumed =
      initialWorld.framesConsumed := by
    simp [tick, initStep, muteStep, frameProcess, pollWorld, pollChan, displayStep,
      loopRestart, init_video, playsAudio, initialWorld, BootState.new]
  exact ⟨h, restart_preserves_display.2.2 _ initialWorld h⟩

/-! ### Claim C5: one poll per tick, uniform treatment of channel closure -/

/-- A frame with the given fps and empty payload, for concrete runs. -/
def mkFrame (F : ℚ) : VideoFrame := ⟨0, [], 0, 0, F⟩

theorem workerEmits_error_cut (pre post : List (Option VideoFrame)) :
    workerEmits (pre ++ none :: post) = workerEmits pre := by
  induction pre with
  | nil => rfl
  | cons x rest ih =>
    cases x with
    | none => rfl
    | some f =>
      show f :: workerEmits (rest ++ none :: post) = f :: workerEmits rest
      rw [ih]

theorem displayStep_pending_facts (w : World) (f : VideoFrame)
    (hf : w.boot.next_frame = some f) :
    (displayStep w).chan = w.chan ∧
    (displayStep w).boot.video_ended = w.boot.video_ended := by
  rw [displayStep_some w f hf]
  split
  · exact ⟨rfl, rfl⟩
  · exact ⟨rfl, rfl⟩

theorem pollWorld_pending (e : TickEnv) (w : World) (f : VideoFrame)
    (hf : w.boot.next_frame = some f) :
    (pollWorld e w).boot.next_frame = some f ∧
    (pollWorld e w).chan = ⟨w.chan.queue ++ e.arrivals, w.chan.closed || e.closesNow⟩ ∧
    (pollWorld e w).boot.video_ended = w.boot.video_ended := by
  unfold pollWorld
  refine ⟨?_, ?_, ?_⟩ <;>
    simp only [pollChan, hf, Option.isNone_some, Bool.false_eq_true, if_false]

/-- C5: when the pending frame is empty the scheduler performs exactly one
non-blocking receive in the tick — one queued frame is removed and becomes
the new pending frame (possibly consumed later in the same tick); when a
pending frame exists no receive happens and the queue is left whole; a
disconnected channel observed with no pending frame sets the ended flag in
the poll; and the worker's channel is identical whether the decode loop
stopped at a mid-stream error or at natural end of stream — the frames
before the first error, with the sending endpoint closed. -/
theorem scheduler_poll_once :
    (∀ (e : TickEnv) (w : World) (f : VideoFrame) (rest : List VideoFrame),
      w.boot.video_receiver = true → w.boot.next_frame = none →
      w.chan.queue ++ e.arrivals = f :: rest →
      (tick e w).chan.queue = rest ∧
      ((tick e w).boot.next_frame = some f ∨
        ((tick e w).boot.next_frame = none ∧
         (tick e w).framesConsumed = w.framesConsumed + 1 ∧
         (tick e w).displayed = w.displayed ++ [f.rgba]))) ∧
    (∀ (e : TickEnv) (w : World) (f : VideoFrame),
      w.boot.video_receiver = true → w.boot.next_frame = some f →
      (tick e w).chan.queue = w.chan.queue ++ e.arrivals ∧
      (tick e w).boot.video_ended = w.boot.video_ended) ∧
    (∀ (e : TickEnv) (w : World),
      w.boot.video_receiver = true → w.boot.next_frame = none →
      w.chan.queue ++ e.arrivals = [] → (w.chan.closed || e.closesNow) = true →
      (pollWorld e w).boot.video_ended = true ∧
      (pollWorld e w).boot.next_frame = none) ∧
    (∀ (pre post : List (Option VideoFrame)),
      workerEmits (pre ++ none :: post) = workerEmits pre) ∧
    (∀ rs : List (Option VideoFrame), (workerChan rs).closed = true) := by
  refine ⟨?_, ?_, ?_, workerEmits_error_cut, fun rs => rfl⟩
  · intro e w f rest hr hf hq
    have h1 : tick e w = frameProcess e (muteStep e w) := tick_running e w hr
    rw [muteStep_eq e w] at h1
    have h2 := frameProcess_recv e
      { w with boot := { w.boot with video_muted := xor e.muteKey w.boot.video_muted } }
      f rest hr hf hq
    rw [h2] at h1
    rw [displayStep_some _ f rfl] at h1
    split at h1
    · refine ⟨?_, Or.inr ⟨?_, ?_, ?_⟩⟩ <;> (rw [h1]; try rfl)
    · refine ⟨?_, Or.inl ?_⟩ <;> (rw [h1]; try rfl)
  · intro e w f hr hf
    rw [tick_running e w hr, muteStep_eq e w]
    set wm : World :=
      { w with boot := { w.boot with video_muted := xor e.muteKey w.boot.video_muted } }
    have hrm : wm.boot.video_receiver = true := hr
    have hfm : wm.boot.next_frame = some f := hf
    rw [frameProcess_on e wm hrm]
    have hp := pollWorld_pending e wm f hfm
    have hd := displayStep_pending_facts (pollWorld e wm) f hp.1
    constructor
    · rw [hd.1, hp.2.1]
    · rw [hd.2, hp.2.2]
  · intro e w hr hf hq hc
    unfold pollWorld
    constructor <;> simp only [pollChan, hf, Option.isNone_none, if_true, hq, hc]

theorem scheduler_poll_once_witness :
    (tick ⟨0, false, true, true, true, [], false⟩
      { boot := { BootState.new with video_receiver := true }
        chan := ⟨[mkFrame 1], false⟩
        liveAudio := 0
        initCount := 1
        framesConsumed := 0
        displayed := [] }).chan.queue = [] ∧
    ((tick ⟨0, false, true, true, true, [], false⟩
      { boot := { BootState.new with video_receiver := true }
        chan := ⟨[mkFrame 1], false⟩
        liveAudio := 0
        initCount := 1
        framesConsumed := 0
        displayed := [] }).boot.next_frame = some (mkFrame 1) ∨
      ((tick ⟨0, false, true, true, true, [], false⟩
        { boot := { BootState.new with video_receiver := true }
          chan := ⟨[mkFrame 1], false⟩
          liveAudio := 0
          initCount := 1
          framesConsumed := 0
          displayed := [] }).boot.next_frame = none ∧
       (tick ⟨0, false, true, true, true, [], false⟩
        { boot := { BootState.new with video_receiver := true }
          chan := ⟨[mkFrame 1], false⟩
          liveAudio := 0
          initCount := 1
          framesConsumed := 0
          displayed := [] }).framesConsumed = 0 + 1 ∧
       (tick ⟨0, false, true, true, true, [], false⟩
        { boot := { BootState.new with video_receiver := true }
          chan := ⟨[mkFrame 1], false⟩
          liveAudio := 0
          initCount := 1
          framesConsumed := 0
          displayed := [] }).displayed = [] ++ [(mkFrame 1).rgba])) :=
  scheduler_poll_once.1 ⟨0, false, true, true, true, [], false⟩
    { boot := { BootState.new with video_receiver := true }
      chan := ⟨[mkFrame 1], false⟩
      liveAudio := 0
      initCount := 1
      framesConsumed := 0
      displayed := [] } (mkFrame 1) [] rfl rfl (by simp)

/-! ### Claim C6: the Ended → Restarting transition and audio exclusivity -/

theorem pollWorld_empty_ended (e : TickEnv) (w : World)
    (hf : w.boot.next_frame = none) (he : w.boot.video_ended = true)
    (hq : w.chan.queue ++ e.arrivals = []) :
    (pollWorld e w).boot.next_frame = none ∧
    (pollWorld e w).boot.video_ended = true := by
  unfold pollWorld
  constructor
  · simp only [pollChan, hf, Option.isNone_none, if_true, hq]
    split <;> simp [hf]
  · simp only [pollChan, hf, Option.isNone_none, if_true, hq]
    split
    · rfl
    · exact he

theorem displayStep_initCount (w : World) :
    (displayStep w).initCount = w.initCount := by
  cases hnf : w.boot.next_frame with
  | none =>
    cases he : w.boot.video_ended with
    | false => rw [displayStep_none_live w hnf he]
    | true => rw [displayStep_none_ended w hnf he]; rfl
  | some f => rw [displayStep_some w f hnf]; split <;> rfl

theorem frameProcess_initCount (e : TickEnv) (w : World) :
    (frameProcess e w).initCount = w.initCount := by
  cases hr : w.boot.video_receiver with
  | false => rw [frameProcess_off e w hr]
  | true =>
    rw [frameProcess_on e w hr, displayStep_initCount]
    rfl

/-- The audio-exclusivity invariant: a torn-down session holds no audio
instance, and the number of live audio instances matches the handle. -/
def AudioInv (w : World) : Prop :=
  (w.boot.video_receiver = false → w.boot.video_instance = false) ∧
  w.liveAudio = (if w.boot.video_instance then 1 else 0)

theorem audioInv_init (e : TickEnv) (w : World) (h : AudioInv w)
    (hr : w.boot.video_receiver = false) : AudioInv (init_video e w) := by
  obtain ⟨h1, h2⟩ := h
  have hi : w.boot.video_instance = false := h1 hr
  rw [hi] at h2
  cases hp : playsAudio e w <;>
    simp [init_video, AudioInv, hp, hi, h2]

theorem audioInv_initStep (e : TickEnv) (w : World) (h : AudioInv w) :
    AudioInv (initStep e w) := by
  unfold initStep
  split
  · next hg =>
    have hr : w.boot.video_receiver = false := by
      cases hrr : w.boot.video_receiver
      · rfl
      · rw [hrr] at hg; simp at hg
    exact audioInv_init e w h hr
  · exact h

theorem audioInv_muteStep (e : TickEnv) (w : World) (h : AudioInv w) :
    AudioInv (muteStep e w) := by
  unfold muteStep
  split
  · exact h
  · exact h

theorem audioInv_loopRestart (w : World) (h : AudioInv w) :
    AudioInv (loopRestart w) := by
  obtain ⟨h1, h2⟩ := h
  constructor
  · intro _
    rfl
  · show (if w.boot.video_instance then w.liveAudio - 1 else w.liveAudio) = _
    cases hi : w.boot.video_instance <;> rw [hi] at h2 <;> simp [h2, loopRestart]

theorem audioInv_displayStep (w : World) (h : AudioInv w) :
    AudioInv (displayStep w) := by
  cases hnf : w.boot.next_frame with
  | none =>
    cases he : w.boot.video_ended with
    | false => rw [displayStep_none_live w hnf he]; exact h
    | true => rw [displayStep_none_ended w hnf he]; exact audioInv_loopRestart w h
  | some f =>
    rw [displayStep_some w f hnf]
    split
    · exact h
    · exact h

theorem audioInv_pollWorld (e : TickEnv) (w : World) (h : AudioInv w) :
    AudioInv (pollWorld e w) := by
  obtain ⟨h1, h2⟩ := h
  have hrec : (pollWorld e w).boot.video_receiver = w.boot.video_receiver := by
    unfold pollWorld pollChan
    split
    · split
      · rfl
      · split <;> rfl
    · rfl
  have hins : (pollWorld e w).boot.video_instance = w.boot.video_instance := by
    unfold pollWorld pollChan
    split
    · split
      · rfl
      · split <;> rfl
    · rfl
  constructor
  · rw [hrec, hins]
    exact h1
  · rw [hins]
    exact h2

theorem audioInv_tick (e : TickEnv) (w : World) (h : AudioInv w) :
    AudioInv (tick e w) := by
  unfold tick frameProcess
  split
  · exact audioInv_displayStep _ (audioInv_pollWorld _ _
      (audioInv_muteStep _ _ (audioInv_initStep _ _ h)))
  · exact audioInv_muteStep _ _ (audioInv_initStep _ _ h)

theorem audioInv_trace (w : World) (es : List TickEnv) (h : AudioInv w) :
    AudioInv (trace w es) := by
  induction es generalizing w with
  | nil => exact h
  | cons e es ih => exact ih (tick e w) (audioInv_tick e w h)

theorem audioInv_initialWorld : AudioInv initialWorld := by
  constructor
  · intro _
    rfl
  · rfl

/-- C6: on a tick where the ended flag is set with no pending frame and no
frame left in the channel, the controller performs the Ended → Restarting
transition within that tick: both channel endpoints are dropped, the ended
flag is cleared, the timer is reset to zero, and the audio instance is
stopped and dropped; on any later tick that finds no session and no ended
flag, initialization runs again (the loop); and along any run from the
initial state at most one audio instance is ever live, so the old session's
audio is stopped before the next session's audio starts. -/
theorem ended_restart_transition :
    (∀ (e : TickEnv) (w : World),
      w.boot.video_receiver = true → w.boot.next_frame = none →
      w.boot.video_ended = true → w.chan.queue ++ e.arrivals = [] →
      (tick e w).boot.video_receiver = false ∧
      (tick e w).boot.recycler_tx = false ∧
      (tick e w).boot.video_ended = false ∧
      (tick e w).boot.video_timer = 0 ∧
      (tick e w).boot.video_instance = false) ∧
    (∀ (e : TickEnv) (w : World),
      w.boot.video_receiver = false → w.boot.video_ended = false →
      (tick e w).initCount = w.initCount + 1) ∧
    (∀ es : List TickEnv, (trace initialWorld es).liveAudio ≤ 1) := by
  refine ⟨?_, ?_, ?_⟩
  · intro e w hr hf he hq
    rw [tick_running e w hr, muteStep_eq e w]
    set wm : World :=
      { w with boot := { w.boot with video_muted := xor e.muteKey w.boot.video_muted } }
    have hrm : wm.boot.video_receiver = true := hr
    rw [frameProcess_on e wm hrm]
    have hp := pollWorld_empty_ended e wm hf he hq
    rw [displayStep_none_ended _ hp.1 hp.2]
    exact ⟨rfl, rfl, rfl, rfl, rfl⟩
  · intro e w hr he
    show (frameProcess e (muteStep e (initStep e w))).initCount = w.initCount + 1
    rw [frameProcess_initCount]
    rw [initStep_on e w hr he]
    have : (muteStep e (init_video e w)).initCount = (init_video e w).initCount := by
      unfold muteStep
      split <;> rfl
    rw [this]
    rfl
  · intro es
    have h := audioInv_trace initialWorld es audioInv_initialWorld
    rw [h.2]
    split <;> omega

theorem ended_restart_transition_witness :
    (tick ⟨1, false, true, true, true, [], false⟩
      { boot := { BootState.new with video_receiver := true, video_ended := true }
        chan := ⟨[], true⟩
        liveAudio := 0
        initCount := 1
        framesConsumed := 0
        displayed := [] }).boot.video_receiver = false ∧
    (tick ⟨1, false, true, true, true, [], false⟩
      { boot := { BootState.new with video_receiver := true, video_ended := true }
        chan := ⟨[], true⟩
        liveAudio := 0
        initCount := 1
        framesConsumed := 0
        displayed := [] }).boot.recycler_tx = false ∧
    (tick ⟨1, false, true, true, true, [], false⟩
      { boot := { BootState.new with video_receiver := true, video_ended := true }
        chan := ⟨[], true⟩
        liveAudio := 0
        initCount := 1
        framesConsumed := 0
        displayed := [] }).boot.video_ended = false ∧
    (tick ⟨1, false, true, true, true, [], false⟩
      { boot := { BootState.new with video_receiver := true, video_ended := true }
        chan := ⟨[], true⟩
        liveAudio := 0
        initCount := 1
        framesConsumed := 0
        displayed := [] }).boot.video_timer = 0 ∧
    (tick ⟨1, false, true, true, true, [], false⟩
      { boot := { BootState.new with video_receiver := true, video_ended := true }
        chan := ⟨[], true⟩
        liveAudio := 0
        initCount := 1
        framesConsumed := 0
        displayed := [] }).boot.video_instance = false :=
  ended_restart_transition.1 ⟨1, false, true, true, true, [], false⟩
    { boot := { BootState.new with video_receiver := true, video_ended := true }
      chan := ⟨[], true⟩
      liveAudio := 0
      initCount := 1
      framesConsumed := 0
      displayed := [] } rfl rfl rfl (by simp)

/-! ### Claim C2: behavior when the source cannot be opened -/

/-- The draw-side fallback test (boot.rs lines 311-323): the placeholder
text is drawn exactly when no video texture exists. -/
def drawsPlaceholder (w : World) : Bool := w.boot.video_texture.isNone

theorem pollChan_instance (b : BootState) (c : Chan) :
    (pollChan b c).1.video_instance = b.video_instance := by
  unfold pollChan
  split
  · split
    · rfl
    · split <;> rfl
  · rfl

theorem pollWorld_instance (e : TickEnv) (w : World) :
    (pollWorld e w).boot.video_instance = w.boot.video_instance :=
  pollChan_instance _ _

theorem pollWorld_disconnect (e : TickEnv) (w : World)
    (hf : w.boot.next_frame = none)
    (hq : w.chan.queue ++ e.arrivals = [])
    (hc : (w.chan.closed || e.closesNow) = true) :
    (pollWorld e w).boot.next_frame = none ∧
    (pollWorld e w).boot.video_ended = true := by
  unfold pollWorld
  constructor <;> simp only [pollChan, hf, Option.isNone_none, if_true, hq, hc]

/-- Per-tick state of a session whose source never opens. -/
def FailInv (w : World) : Prop :=
  w.boot.video_texture = none ∧ w.boot.video_receiver = false ∧
  w.boot.video_ended = false ∧ w.boot.next_frame = none ∧
  w.boot.video_instance = false ∧ w.liveAudio = 0 ∧
  w.displayed = [] ∧ w.framesConsumed = 0

theorem failInv_tick (e : TickEnv) (w : World)
    (he1 : e.arrivals = []) (he2 : e.decodeOpens = false) (h : FailInv w) :
    FailInv (tick e w) ∧ (tick e w).initCount = w.initCount + 1 := by
  obtain ⟨htex, hrecv, hend, hnf, hinst, hla, hdisp, hfc⟩ := h
  have hIC : (tick e w).initCount = w.initCount + 1 := by
    show (frameProcess e (muteStep e (initStep e w))).initCount = w.initCount + 1
    rw [frameProcess_initCount, initStep_on e w hrecv hend]
    have hmc : (muteStep e (init_video e w)).initCount = (init_video e w).initCount := by
      unfold muteStep
      split <;> rfl
    rw [hmc]
    rfl
  refine ⟨?_, hIC⟩
  show FailInv (frameProcess e (muteStep e (initStep e w)))
  rw [initStep_on e w hrecv hend, muteStep_eq e (init_video e w)]
  set wm : World :=
    { init_video e w with
      boot := { (init_video e w).boot with
        video_muted := xor e.muteKey (init_video e w).boot.video_muted } }
  have hrm : wm.boot.video_receiver = true := rfl
  rw [frameProcess_on e wm hrm]
  have hf : wm.boot.next_frame = none := hnf
  have hq : wm.chan.queue ++ e.arrivals = [] := by
    show ([] : List VideoFrame) ++ e.arrivals = []
    rw [he1]
    rfl
  have hc : (wm.chan.closed || e.closesNow) = true := by
    show (!e.decodeOpens || e.closesNow) = true
    rw [he2]
    rfl
  have hpd := pollWorld_disconnect e wm hf hq hc
  rw [displayStep_none_ended _ hpd.1 hpd.2]
  refine ⟨?_, rfl, rfl, ?_, rfl, ?_, ?_, ?_⟩
  · show (pollWorld e wm).boot.video_texture = none
    rw [pollWorld_texture e wm]
    exact htex
  · show (pollWorld e wm).boot.next_frame = none
    exact hpd.1
  · show (if (pollWorld e wm).boot.video_instance then (pollWorld e wm).liveAudio - 1
      else (pollWorld e wm).liveAudio) = 0
    rw [pollWorld_instance e wm]
    show (if (if playsAudio e w then true else w.boot.video_instance) then
      (w.liveAudio + (if playsAudio e w then 1 else 0)) - 1
      else (w.liveAudio + (if playsAudio e w then 1 else 0))) = 0
    rw [hinst, hla]
    cases hp : playsAudio e w <;> simp [hp]
  · exact hdisp
  · exact hfc

theorem failInv_trace (es : List TickEnv) (w : World)
    (hes : ∀ e ∈ es, e.arrivals = [] ∧ e.decodeOpens = false) (h : FailInv w) :
    FailInv (trace w es) ∧ (trace w es).initCount = w.initCount + es.length := by
  induction es generalizing w with
  | nil => exact ⟨h, rfl⟩
  | cons e es ih =>
    have he := hes e (List.mem_cons_self e es)
    have hstep := failInv_tick e w he.1 he.2 h
    have hrec := ih (tick e w) (fun x hx => hes x (List.mem_cons_of_mem e hx)) hstep.1
    refine ⟨hrec.1, ?_⟩
    show (trace (tick e w) es).initCount = w.initCount + (es.length + 1)
    rw [hrec.2, hstep.2]
    omega

theorem failInv_initialWorld : FailInv initialWorld :=
  ⟨rfl, rfl, rfl, rfl, rfl, rfl, rfl, rfl⟩

/-- C2: over any run in which every session's source open fails (the path
does not exist) and hence no worker ever sends a frame, Playing is never
entered — no frame is ever displayed — the placeholder is drawn on every
tick from the first one on, no audio instance stays live, and at the end of
every tick the session is torn down with its short-lived worker already
exited (its channel endpoints dropped); each tick re-runs initialization
(`initCount = number of ticks`), the code's loop taking the place of a
terminal Fallback flag. -/
theorem failed_open_fallback (es : List TickEnv)
    (hes : ∀ e ∈ es, e.arrivals = [] ∧ e.decodeOpens = false) :
    drawsPlaceholder (trace initialWorld es) = true ∧
    (trace initialWorld es).displayed = [] ∧
    (trace initialWorld es).framesConsumed = 0 ∧
    (trace initialWorld es).boot.video_receiver = false ∧
    (trace initialWorld es).liveAudio = 0 ∧
    (trace initialWorld es).initCount = es.length := by
  obtain ⟨⟨htex, hrecv, _, _, _, hla, hdisp, hfc⟩, hic⟩ :=
    failInv_trace es initialWorld hes failInv_initialWorld
  refine ⟨?_, hdisp, hfc, hrecv, hla, by simpa [initialWorld] using hic⟩
  rw [drawsPlaceholder, htex]
  rfl

theorem failed_open_fallback_witness :
    drawsPlaceholder (trace initialWorld [⟨1, false, false, false, false, [], false⟩]) = true ∧
    (trace initialWorld [⟨1, false, false, false, false, [], false⟩]).displayed = [] ∧
    (trace initialWorld [⟨1, false, false, false, false, [], false⟩]).framesConsumed = 0 ∧
    (trace initialWorld [⟨1, false, false, false, false, [], false⟩]).boot.video_receiver
      = false ∧
    (trace initialWorld [⟨1, false, false, false, false, [], false⟩]).liveAudio = 0 ∧
    (trace initialWorld [⟨1, false, false, false, false, [], false⟩]).initCount =
      [(⟨1, false, false, false, false, [], false⟩ : TickEnv)].length :=
  failed_open_fallback [⟨1, false, false, false, false, [], false⟩]
    (by intro e he; simp at he; rw [he]; exact ⟨rfl, rfl⟩)

/-! ### Claim C1: frame pacing against accumulated wall-clock time -/

/-- A mid-session state: receiver live, a pending frame of rate `F`,
`video_fps` already synced, timer at zero. -/
def playingWorld (F : ℚ) : World :=
  { boot := { BootState.new with
      video_receiver := true
      recycler_tx := true
      next_frame := some (mkFrame F)
      video_fps := F }
    chan := ⟨[], false⟩
    liveAudio := 0
    initCount := 1
    framesConsumed := 0
    displayed := [] }

/-- A tick during which the decoder keeps up (one fresh frame of rate `F`
arrives), the channel stays open, and the wall-clock delta is at most one
frame duration. -/
def goodEnv (F : ℚ) (e : TickEnv) : Prop :=
  0 ≤ e.dt ∧ e.dt * F ≤ 1 ∧ e.arrivals = [mkFrame F] ∧ e.closesNow = false

/-- The pacing invariant: session live at rate `F`, frames always
available, and the timer remainder strictly below one frame duration. -/
def PaceInv (F : ℚ) (w : World) : Prop :=
  w.boot.video_receiver = true ∧ w.boot.video_ended = false ∧
  w.chan.closed = false ∧ w.boot.video_fps = F ∧
  (w.boot.next_frame = none ∨ w.boot.next_frame = some (mkFrame F)) ∧
  (∀ f ∈ w.chan.queue, f = mkFrame F) ∧
  0 ≤ w.boot.video_timer ∧ w.boot.video_timer * F < 1

theorem pollWorld_some_full (e : TickEnv) (w : World) (f : VideoFrame)
    (hf : w.boot.next_frame = some f) :
    pollWorld e w = { w with
      boot := { w.boot with video_timer := w.boot.video_timer + e.dt }
      chan := ⟨w.chan.queue ++ e.arrivals, w.chan.closed || e.closesNow⟩ } := by
  unfold pollWorld
  simp only [pollChan, hf, Option.isNone_some, Bool.false_eq_true, if_false]

theorem pollWorld_recv_full (e : TickEnv) (w : World) (f : VideoFrame)
    (rest : List VideoFrame) (hf : w.boot.next_frame = none)
    (hq : w.chan.queue ++ e.arrivals = f :: rest) :
    pollWorld e w = { w with
      boot := { w.boot with
        video_timer := w.boot.video_timer + e.dt
        next_frame := some f }
      chan := ⟨rest, w.chan.closed || e.closesNow⟩ } := by
  unfold pollWorld
  simp only [pollChan, hf, Option.isNone_none, if_true, hq]

theorem all_append_single (q : List VideoFrame) (F : ℚ)
    (hq : ∀ g ∈ q, g = mkFrame F) :
    ∃ rest, q ++ [mkFrame F] = mkFrame F :: rest ∧ ∀ x ∈ rest, x = mkFrame F := by
  cases q with
  | nil => exact ⟨[], rfl, by simp⟩
  | cons g gs =>
    have hg : g = mkFrame F := hq g (by simp)
    refine ⟨gs ++ [mkFrame F], by rw [hg]; rfl, ?_⟩
    intro x hx
    rcases List.mem_append.mp hx with h | h
    · exact hq x (by simp [h])
    · simpa using h

theorem paceInv_display (F : ℚ) (hF : 0 < F) (v : World)
    (hrecv : v.boot.video_receiver = true) (hend : v.boot.video_ended = false)
    (hcl : v.chan.closed = false) (hnf : v.boot.next_frame = some (mkFrame F))
    (hqa : ∀ f ∈ v.chan.queue, f = mkFrame F)
    (ht0 : 0 ≤ v.boot.video_timer) (ht1 : v.boot.video_timer * F < 2) :
    PaceInv F (displayStep v) ∧
    ((displayStep v).framesConsumed : ℚ) + (displayStep v).boot.video_timer * F =
      (v.framesConsumed : ℚ) + v.boot.video_timer * F := by
  have hFne : F ≠ 0 := ne_of_gt hF
  rw [displayStep_some v (mkFrame F) hnf]
  split
  · next hc =>
    have hc' : 1 / F ≤ v.boot.video_timer := hc
    constructor
    · refine ⟨hrecv, hend, hcl, rfl, Or.inl rfl, hqa, ?_, ?_⟩
      · show 0 ≤ v.boot.video_timer - 1 / F
        linarith
      · show (v.boot.video_timer - 1 / F) * F < 1
        have hexp : (v.boot.video_timer - 1 / F) * F = v.boot.video_timer * F - 1 := by
          field_simp
        rw [hexp]
        linarith
    · show ((v.framesConsumed + 1 : ℕ) : ℚ) + (v.boot.video_timer - 1 / F) * F =
        (v.framesConsumed : ℚ) + v.boot.video_timer * F
      push_cast
      have hexp : (v.boot.video_timer - 1 / F) * F = v.boot.video_timer * F - 1 := by
        field_simp
      rw [hexp]
      ring
  · next hc =>
    have hlt : v.boot.video_timer < 1 / F := lt_of_not_le hc
    constructor
    · refine ⟨hrecv, hend, hcl, rfl, Or.inr hnf, hqa, ht0, ?_⟩
      show v.boot.video_timer * F < 1
      have h2 : v.boot.video_timer * F < (1 / F) * F := by
        exact mul_lt_mul_of_pos_right hlt hF
      rwa [one_div, inv_mul_cancel₀ hFne] at h2
    · rfl

theorem paceInv_tick (F : ℚ) (hF : 0 < F) (e : TickEnv) (w : World)
    (hg : goodEnv F e) (h : PaceInv F w) :
    PaceInv F (tick e w) ∧
    ((tick e w).framesConsumed : ℚ) + (tick e w).boot.video_timer * F =
      (w.framesConsumed : ℚ) + w.boot.video_timer * F + e.dt * F := by
  obtain ⟨hrecv, hend, hcl, hfps, hpend, hqa, ht0, ht1⟩ := h
  obtain ⟨hd0, hd1, harr, hcls⟩ := hg
  rw [tick_running e w hrecv, muteStep_eq e w]
  set wm : World :=
    { w with boot := { w.boot with video_muted := xor e.muteKey w.boot.video_muted } }
  have hrm : wm.boot.video_receiver = true := hrecv
  rw [frameProcess_on e wm hrm]
  have hclm : (wm.chan.closed || e.closesNow) = false := by
    show (w.chan.closed || e.closesNow) = false
    rw [hcl, hcls]
    rfl
  rcases hpend with hnone | hsome
  · have hfm : wm.boot.next_frame = none := hnone
    obtain ⟨rest, hsplit, hrest⟩ := all_append_single w.chan.queue F hqa
    have hq2 : wm.chan.queue ++ e.arrivals = mkFrame F :: rest := by
      show w.chan.queue ++ e.arrivals = mkFrame F :: rest
      rw [harr]
      exact hsplit
    rw [pollWorld_recv_full e wm (mkFrame F) rest hfm hq2]
    set X : World :=
      { wm with
        boot := { wm.boot with
          video_timer := wm.boot.video_timer + e.dt
          next_frame := some (mkFrame F) }
        chan := ⟨rest, wm.chan.closed || e.closesNow⟩ }
    have hXr : X.boot.video_receiver = true := hrecv
    have hXe : X.boot.video_ended = false := hend
    have hXc : X.chan.closed = false := hclm
    have hXn : X.boot.next_frame = some (mkFrame F) := rfl
    have hXq : ∀ f ∈ X.chan.queue, f = mkFrame F := hrest
    have hXt0 : 0 ≤ X.boot.video_timer := by
      show 0 ≤ w.boot.video_timer + e.dt
      linarith
    have hXt1 : X.boot.video_timer * F < 2 := by
      show (w.boot.video_timer + e.dt) * F < 2
      rw [add_mul]
      linarith
    have hres := paceInv_display F hF X hXr hXe hXc hXn hXq hXt0 hXt1
    refine ⟨hres.1, ?_⟩
    rw [hres.2]
    show (w.framesConsumed : ℚ) + (w.boot.video_timer + e.dt) * F = _
    ring
  · have hfm : wm.boot.next_frame = some (mkFrame F) := hsome
    rw [pollWorld_some_full e wm (mkFrame F) hfm]
    set X : World :=
      { wm with
        boot := { wm.boot with video_timer := wm.boot.video_timer + e.dt }
        chan := ⟨wm.chan.queue ++ e.arrivals, wm.chan.closed || e.closesNow⟩ }
    have hXr : X.boot.video_receiver = true := hrecv
    have hXe : X.boot.video_ended = false := hend
    have hXc : X.chan.closed = false := hclm
    have hXn : X.boot.next_frame = some (mkFrame F) := hsome
    have hXq : ∀ f ∈ X.chan.queue, f = mkFrame F := by
      show ∀ f ∈ w.chan.queue ++ e.arrivals, f = mkFrame F
      intro g hg2
      rcases List.mem_append.mp hg2 with hmem | hmem
      · exact hqa g hmem
      · rw [harr] at hmem
        simpa using hmem
    have hXt0 : 0 ≤ X.boot.video_timer := by
      show 0 ≤ w.boot.video_timer + e.dt
      linarith
    have hXt1 : X.boot.video_timer * F < 2 := by
      show (w.boot.video_timer + e.dt) * F < 2
      rw [add_mul]
      linarith
    have hres := paceInv_display F hF X hXr hXe hXc hXn hXq hXt0 hXt1
    refine ⟨hres.1, ?_⟩
    rw [hres.2]
    show (w.framesConsumed : ℚ) + (w.boot.video_timer + e.dt) * F = _
    ring

theorem totalDt_cons (e : TickEnv) (es : List TickEnv) :
    totalDt (e :: es) = e.dt + totalDt es := by
  simp [totalDt]

theorem paceInv_trace (F : ℚ) (hF : 0 < F) (es : List TickEnv) (w : World)
    (hes : ∀ e ∈ es, goodEnv F e) (h : PaceInv F w) :
    PaceInv F (trace w es) ∧
    ((trace w es).framesConsumed : ℚ) + (trace w es).boot.video_timer * F =
      (w.framesConsumed : ℚ) + w.boot.video_timer * F + totalDt es * F := by
  induction es generalizing w with
  | nil =>
    refine ⟨h, ?_⟩
    show (w.framesConsumed : ℚ) + w.boot.video_timer * F = _
    simp [totalDt]
  | cons e es ih =>
    have he := hes e (List.mem_cons_self e es)
    have hstep := paceInv_tick F hF e w he h
    have hrec := ih (tick e w) (fun x hx => hes x (List.mem_cons_of_mem e hx)) hstep.1
    refine ⟨hrec.1, ?_⟩
    show ((trace (tick e w) es).framesConsumed : ℚ) +
      (trace (tick e w) es).boot.video_timer * F = _
    rw [hrec.2, hstep.2, totalDt_cons]
    ring

theorem paceInv_playingWorld (F : ℚ) : PaceInv F (playingWorld F) := by
  refine ⟨rfl, rfl, rfl, rfl, Or.inr rfl, ?_, le_refl 0, ?_⟩
  · intro f hf
    simp [playingWorld] at hf
  · show (0 : ℚ) * F < 1
    norm_num

theorem displayStep_consumed_le (w : World) :
    (displayStep w).framesConsumed ≤ w.framesConsumed + 1 := by
  cases hnf : w.boot.next_frame with
  | none =>
    cases he : w.boot.video_ended with
    | false => rw [displayStep_none_live w hnf he]; omega
    | true => rw [displayStep_none_ended w hnf he]; show w.framesConsumed ≤ _; omega
  | some f =>
    rw [displayStep_some w f hnf]
    split
    · exact Nat.le_refl _
    · show w.framesConsumed ≤ _
      omega

theorem tick_consumed_le (e : TickEnv) (w : World) :
    (tick e w).framesConsumed ≤ w.framesConsumed + 1 := by
  show (frameProcess e (muteStep e (initStep e w))).framesConsumed ≤ _
  have h1 := (initStep_texture e w).2
  have h2 := (muteStep_texture e (initStep e w)).2
  cases hr : (muteStep e (initStep e w)).boot.video_receiver with
  | false =>
    rw [frameProcess_off e _ hr, h2, h1]
    omega
  | true =>
    rw [frameProcess_on e _ hr]
    have h3 := displayStep_consumed_le (pollWorld e (muteStep e (initStep e w)))
    rw [pollWorld_consumed] at h3
    rw [h2, h1] at h3
    exact h3

theorem tick_consume_timer (e : TickEnv) (w : World) (f : VideoFrame)
    (hr : w.boot.video_receiver = true) (hf : w.boot.next_frame = some f)
    (hc : 1 / f.fps ≤ w.boot.video_timer + e.dt) :
    (tick e w).boot.video_timer = w.boot.video_timer + e.dt - 1 / f.fps := by
  rw [tick_running e w hr, muteStep_eq e w]
  set wm : World :=
    { w with boot := { w.boot with video_muted := xor e.muteKey w.boot.video_muted } }
  have hrm : wm.boot.video_receiver = true := hr
  rw [frameProcess_on e wm hrm]
  have hfm : wm.boot.next_frame = some f := hf
  rw [pollWorld_some_full e wm f hfm]
  set X : World :=
    { wm with
      boot := { wm.boot with video_timer := wm.boot.video_timer + e.dt }
      chan := ⟨wm.chan.queue ++ e.arrivals, wm.chan.closed || e.closesNow⟩ }
  have hXn : X.boot.next_frame = some f := hf
  rw [displayStep_some X f hXn]
  have hcX : 1 / f.fps ≤ X.boot.video_timer := hc
  rw [if_pos hcX]
  rfl

/-- C1 (amended): with a constant positive source rate `F`, frames always
available, an open channel, and every tick delta at most one frame
duration, the number of consumed frames after total elapsed time `T`
equals `⌊T · F⌋` exactly; in general each tick consumes at most one frame
(the consume branch is an `if`, not a `while`, and the replacement frame is
fetched only on the following tick), and consuming subtracts one frame
duration from the timer — carrying the remainder, never resetting it. -/
theorem frame_pacing_floor (F : ℚ) (es : List TickEnv) (hF : 0 < F)
    (hes : ∀ e ∈ es, goodEnv F e) :
    (((trace (playingWorld F) es).framesConsumed : ℤ) = ⌊totalDt es * F⌋) ∧
    (∀ (e : TickEnv) (w : World), (tick e w).framesConsumed ≤ w.framesConsumed + 1) ∧
    (∀ (e : TickEnv) (w : World) (f : VideoFrame),
      w.boot.video_receiver = true → w.boot.next_frame = some f →
      1 / f.fps ≤ w.boot.video_timer + e.dt →
      (tick e w).boot.video_timer = w.boot.video_timer + e.dt - 1 / f.fps) := by
  refine ⟨?_, tick_consumed_le, tick_consume_timer⟩
  obtain ⟨hinv, hacc⟩ :=
    paceInv_trace F hF es (playingWorld F) hes (paceInv_playingWorld F)
  have hzero : ((playingWorld F).framesConsumed : ℚ) +
      (playingWorld F).boot.video_timer * F = 0 := by
    show (0 : ℚ) + 0 * F = 0
    ring
  rw [hzero, zero_add] at hacc
  obtain ⟨_, _, _, _, _, _, ht0, ht1⟩ := hinv
  symm
  rw [Int.floor_eq_iff]
  constructor
  · push_cast
    have htF : 0 ≤ (trace (playingWorld F) es).boot.video_timer * F :=
      mul_nonneg ht0 (le_of_lt hF)
    linarith
  · push_cast
    linarith

theorem frame_pacing_floor_witness :
    ((World.framesConsumed
        (trace (playingWorld 1) [⟨1, false, true, true, true, [mkFrame 1], false⟩]) : ℤ) =
      ⌊totalDt [⟨1, false, true, true, true, [mkFrame 1], false⟩] * (1 : ℚ)⌋) :=
  (frame_pacing_floor 1 [⟨1, false, true, true, true, [mkFrame 1], false⟩]
    (by norm_num)
    (by
      intro e he
      simp at he
      rw [he]
      exact ⟨by norm_num, by norm_num, rfl, rfl⟩)).1

/-- C1 as stated is false: with frames always available and a single tick
of delta 3 at rate `F = 1`, the scheduler consumes exactly one frame (the
`if`, not a `while`), while `⌊T · F⌋ = 3`, so the consumed count is not
within one frame of `⌊T · F⌋`. -/
theorem frame_pacing_counterexample :
    World.framesConsumed
      (trace (playingWorld 1) [⟨3, false, true, true, true, [mkFrame 1], false⟩]) = 1 ∧
    ⌊totalDt [⟨3, false, true, true, true, [mkFrame 1], false⟩] * (1 : ℚ)⌋ = 3 ∧
    ¬(Int.natAbs
        (⌊totalDt [⟨3, false, true, true, true, [mkFrame 1], false⟩] * (1 : ℚ)⌋ -
          (World.framesConsumed
            (trace (playingWorld 1)
              [⟨3, false, true, true, true, [mkFrame 1], false⟩]) : ℤ)) ≤ 1) := by
  have hconsumed :
      World.framesConsumed
        (trace (playingWorld 1) [⟨3, false, true, true, true, [mkFrame 1], false⟩]) = 1 := by
    show (trace (playingWorld 1)
      [⟨3, false, true, true, true, [mkFrame 1], false⟩]).framesConsumed = 1
    simp [trace, tick, initStep, muteStep, frameProcess, pollWorld, pollChan,
      displayStep, loopRestart, init_video, playsAudio, playingWorld, mkFrame,
      BootState.new]
  have hfloor : ⌊totalDt [⟨3, false, true, true, true, [mkFrame 1], false⟩] * (1 : ℚ)⌋
      = 3 := by
    simp [totalDt]
  refine ⟨hconsumed, hfloor, ?_⟩
  rw [hconsumed, hfloor]
  decide

/-! ### Claim C7: mute toggling is orthogonal to the video pipeline -/

/-- Every consumer-observable part of the video pipeline: session and
channel state, pending frame, display texture and geometry, pacing state,
and the ghost logs — everything except the mute flag and the audio
fields. -/
def videoView (w : World) :
    Bool × Bool × Option VideoFrame × Option (List ℕ) × ℕ × ℕ × ℚ × ℚ × Bool ×
    List VideoFrame × Bool × ℕ × ℕ × List (List ℕ) :=
  (w.boot.video_receiver, w.boot.recycler_tx, w.boot.next_frame,
   w.boot.video_texture, w.boot.video_width, w.boot.video_height,
   w.boot.video_fps, w.boot.video_timer, w.boot.video_ended,
   w.chan.queue, w.chan.closed, w.initCount, w.framesConsumed, w.displayed)

/-- The tick environment with the mute key ignored. -/
def TickEnv.sansMute (e : TickEnv) : ℚ × Bool × Bool × Bool × List VideoFrame × Bool :=
  (e.dt, e.decodeOpens, e.audioLoadOk, e.audioPlayOk, e.arrivals, e.closesNow)

theorem muteStep_view (e : TickEnv) (w : World) :
    videoView (muteStep e w) = videoView w := by
  unfold muteStep
  split <;> rfl

theorem initStep_congr (e e' : TickEnv) (w w' : World)
    (henv : e.sansMute = e'.sansMute) (hv : videoView w = videoView w') :
    videoView (initStep e w) = videoView (initStep e' w') := by
  obtain ⟨⟨m1, recv1, rcy1, nf1, snd1, inst1, tex1, wd1, ht1, fps1, tmr1, ed1⟩,
    ⟨q1, cl1⟩, la1, ic1, fc1, dp1⟩ := w
  obtain ⟨⟨m2, recv2, rcy2, nf2, snd2, inst2, tex2, wd2, ht2, fps2, tmr2, ed2⟩,
    ⟨q2, cl2⟩, la2, ic2, fc2, dp2⟩ := w'
  obtain ⟨d1, k1, o1, al1, ap1, ar1, cn1⟩ := e
  obtain ⟨d2, k2, o2, al2, ap2, ar2, cn2⟩ := e'
  simp only [videoView, TickEnv.sansMute, Prod.mk.injEq] at hv henv
  obtain ⟨hrecv, hrcy, hnf, htex, hwd, hht, hfps, htmr, hed, hq, hcl, hic, hfc, hdp⟩ := hv
  obtain ⟨hd, ho, hal, hap, har, hcn⟩ := henv
  subst hrecv hrcy hnf htex hwd hht hfps htmr hed hq hcl hic hfc hdp
  subst hd ho hal hap har hcn
  unfold initStep init_video playsAudio videoView
  dsimp only
  split <;> rfl

theorem pollWorld_congr (e e' : TickEnv) (w w' : World)
    (henv : e.sansMute = e'.sansMute) (hv : videoView w = videoView w') :
    videoView (pollWorld e w) = videoView (pollWorld e' w') := by
  obtain ⟨⟨m1, recv1, rcy1, nf1, snd1, inst1, tex1, wd1, ht1, fps1, tmr1, ed1⟩,
    ⟨q1, cl1⟩, la1, ic1, fc1, dp1⟩ := w
  obtain ⟨⟨m2, recv2, rcy2, nf2, snd2, inst2, tex2, wd2, ht2, fps2, tmr2, ed2⟩,
    ⟨q2, cl2⟩, la2, ic2, fc2, dp2⟩ := w'
  obtain ⟨d1, k1, o1, al1, ap1, ar1, cn1⟩ := e
  obtain ⟨d2, k2, o2, al2, ap2, ar2, cn2⟩ := e'
  simp only [videoView, TickEnv.sansMute, Prod.mk.injEq] at hv henv
  obtain ⟨hrecv, hrcy, hnf, htex, hwd, hht, hfps, htmr, hed, hq, hcl, hic, hfc, hdp⟩ := hv
  obtain ⟨hd, ho, hal, hap, har, hcn⟩ := henv
  subst hrecv hrcy hnf htex hwd hht hfps htmr hed hq hcl hic hfc hdp
  subst hd ho hal hap har hcn
  unfold pollWorld pollChan videoView
  dsimp only
  repeat' (first | rfl | split)

theorem displayStep_congr (w w' : World) (hv : videoView w = videoView w') :
    videoView (displayStep w) = videoView (displayStep w') := by
  obtain ⟨⟨m1, recv1, rcy1, nf1, snd1, inst1, tex1, wd1, ht1, fps1, tmr1, ed1⟩,
    ⟨q1, cl1⟩, la1, ic1, fc1, dp1⟩ := w
  obtain ⟨⟨m2, recv2, rcy2, nf2, snd2, inst2, tex2, wd2, ht2, fps2, tmr2, ed2⟩,
    ⟨q2, cl2⟩, la2, ic2, fc2, dp2⟩ := w'
  simp only [videoView, Prod.mk.injEq] at hv
  obtain ⟨hrecv, hrcy, hnf, htex, hwd, hht, hfps, htmr, hed, hq, hcl, hic, hfc, hdp⟩ := hv
  subst hrecv hrcy hnf htex hwd hht hfps htmr hed hq hcl hic hfc hdp
  unfold displayStep loopRestart videoView
  dsimp only
  repeat' (first | rfl | split)

theorem frameProcess_congr (e e' : TickEnv) (w w' : World)
    (henv : e.sansMute = e'.sansMute) (hv : videoView w = videoView w') :
    videoView (frameProcess e w) = videoView (frameProcess e' w') := by
  have hrecv : w.boot.video_receiver = w'.boot.video_receiver :=
    congrArg Prod.fst hv
  cases hr : w.boot.video_receiver with
  | false =>
    rw [frameProcess_off e w hr, frameProcess_off e' w' (by rw [← hrecv]; exact hr)]
    exact hv
  | true =>
    rw [frameProcess_on e w hr, frameProcess_on e' w' (by rw [← hrecv]; exact hr)]
    exact displayStep_congr _ _ (pollWorld_congr e e' w w' henv hv)

theorem tick_view_congr (e e' : TickEnv) (w w' : World)
    (henv : e.sansMute = e'.sansMute) (hv : videoView w = videoView w') :
    videoView (tick e w) = videoView (tick e' w') := by
  show videoView (frameProcess e (muteStep e (initStep e w))) = _
  refine frameProcess_congr e e' _ _ henv ?_
  rw [muteStep_view, muteStep_view]
  exact initStep_congr e e' w w' henv hv

theorem trace_view_congr (es es' : List TickEnv) (w w' : World)
    (hf : List.Forall₂ (fun a b => a.sansMute = b.sansMute) es es')
    (hv : videoView w = videoView w') :
    videoView (trace w es) = videoView (trace w' es') := by
  induction hf generalizing w w' with
  | nil => exact hv
  | cons h _ ih => exact ih _ _ (tick_view_congr _ _ _ _ h hv)

/-- C7: toggling mute only flips the flag — the current sound, audio
instance and live-audio count are untouched by the key handler — and the
mute flag and key have no effect on the video pipeline: two runs whose
tick environments agree on everything but the mute key, started from
states that agree on everything but mute/audio, produce identical session
state, channel state, pending frames, textures, pacing, and identical
sequences of displayed frames; in particular the decode worker is never
torn down or respawned and no channel endpoint is dropped by a toggle. -/
theorem mute_toggle_orthogonal :
    (∀ (e : TickEnv) (w : World),
      videoView (muteStep e w) = videoView w ∧
      (muteStep e w).boot.video_sound = w.boot.video_sound ∧
      (muteStep e w).boot.video_instance = w.boot.video_instance ∧
      (muteStep e w).liveAudio = w.liveAudio) ∧
    (∀ (e e' : TickEnv) (w w' : World), e.sansMute = e'.sansMute →
      videoView w = videoView w' → videoView (tick e w) = videoView (tick e' w')) ∧
    (∀ (es es' : List TickEnv) (w w' : World),
      List.Forall₂ (fun a b => a.sansMute = b.sansMute) es es' →
      videoView w = videoView w' →
      videoView (trace w es) = videoView (trace w' es')) := by
  refine ⟨?_, tick_view_congr, trace_view_congr⟩
  intro e w
  unfold muteStep
  split <;> exact ⟨rfl, rfl, rfl, rfl⟩

theorem mute_toggle_orthogonal_witness :
    videoView (tick ⟨1, true, true, true, true, [], false⟩ initialWorld) =
      videoView (tick ⟨1, false, true, true, true, [], false⟩ initialWorld) :=
  mute_toggle_orthogonal.2.1 ⟨1, true, true, true, true, [], false⟩
    ⟨1, false, true, true, true, [], false⟩ initialWorld initialWorld rfl rfl

end Gorkitale
